import Mathlib

/-!
Shallow embedding of `src/server.py` (the QuoteBox MCP server): the static
content table, the `get_quote` handler, the `format_message` styles, the
manual tool-definition registry and the smart POST /sse dispatcher.

Python strings are modelled as Lean `String` (a structure over `List Char`);
the Python string methods used by the server (`lower`, `strip`, `upper`,
`split`, `join`, left-justified formatting) are modelled explicitly below.
`random.choice` is modelled by passing the random draw as an explicit natural
number index, reduced modulo the length of the sequence drawn from.
-/

/-- Model of Python's whitespace test used by `str.strip()` / `str.split()`:
true exactly on the code points Python's `str.isspace` accepts. -/
def pyIsSpace (c : Char) : Bool :=
  decide (c.toNat = 9 ∨ c.toNat = 10 ∨ c.toNat = 11 ∨ c.toNat = 12 ∨ c.toNat = 13 ∨
    c.toNat = 28 ∨ c.toNat = 29 ∨ c.toNat = 30 ∨ c.toNat = 31 ∨ c.toNat = 32 ∨
    c.toNat = 133 ∨ c.toNat = 160 ∨ c.toNat = 5760 ∨
    (8192 ≤ c.toNat ∧ c.toNat ≤ 8202) ∨ c.toNat = 8232 ∨ c.toNat = 8233 ∨
    c.toNat = 8239 ∨ c.toNat = 8287 ∨ c.toNat = 12288)

/-- Model of Python `str.lower()` on a single character (ASCII case mapping). -/
def pyToLower (c : Char) : Char :=
  if 65 ≤ c.toNat ∧ c.toNat ≤ 90 then Char.ofNat (c.toNat + 32) else c

/-- Model of Python `str.upper()` on a single character (ASCII case mapping). -/
def pyToUpper (c : Char) : Char :=
  if 97 ≤ c.toNat ∧ c.toNat ≤ 122 then Char.ofNat (c.toNat - 32) else c

/-- Strip leading and trailing whitespace from a character list
(model of Python `str.strip()`). -/
def pyStripList (l : List Char) : List Char :=
  (((l.dropWhile pyIsSpace).reverse).dropWhile pyIsSpace).reverse

/-- Model of Python `str.lower()`. -/
def pyLower (s : String) : String := ⟨s.data.map pyToLower⟩

/-- Model of Python `str.strip()`. -/
def pyStrip (s : String) : String := ⟨pyStripList s.data⟩

/-- Model of Python `str.split(sep)` for a one-character separator: splits on
every occurrence of `sep`, keeping empty pieces; always returns at least one
piece (`"".split(sep) == [""]`). -/
def splitOnChar (sep : Char) : List Char → List (List Char)
  | [] => [[]]
  | c :: rest =>
    if c = sep then [] :: splitOnChar sep rest
    else
      match splitOnChar sep rest with
      | [] => [[c]]
      | piece :: pieces => (c :: piece) :: pieces

/-- Accumulator loop behind `pySplitWS`; `acc` holds the current word reversed. -/
def splitWSAux : List Char → List Char → List (List Char)
  | [], acc => if acc.isEmpty then [] else [acc.reverse]
  | c :: rest, acc =>
    if pyIsSpace c then
      if acc.isEmpty then splitWSAux rest [] else acc.reverse :: splitWSAux rest []
    else splitWSAux rest (c :: acc)

/-- Model of Python `str.split()` with no separator: split on runs of
whitespace, dropping empty tokens. -/
def pySplitWS (l : List Char) : List (List Char) := splitWSAux l []

/-- Model of Python `sep.join(pieces)`. -/
def pyJoinList (sep : List Char) : List (List Char) → List Char
  | [] => []
  | [x] => x
  | x :: y :: ys => x ++ sep ++ pyJoinList sep (y :: ys)

/-- Model of Python's left-justified format `f"{line:<{width}}"`: pad on the
right with spaces to `width` characters (no truncation). -/
def ljust (width : Nat) (l : List Char) : List Char :=
  l ++ List.replicate (width - l.length) ' '

/-- Model of Python `max` over a list of naturals: `none` on the empty list
(where Python raises `ValueError`). -/
def pyMax : List Nat → Option Nat
  | [] => none
  | x :: xs => some (xs.foldl Nat.max x)

/-- Model of Python `dict.get` on a literal dictionary represented as an
association list (keys are distinct in all dictionaries of the server). -/
def pyDictGet {α : Type} : List (String × α) → String → Option α
  | [], _ => none
  | (k, v) :: rest, key => if k = key then some v else pyDictGet rest key

/-- The `QUOTES` table of `server.py`: category name to its quote list. -/
def QUOTES : List (String × List String) :=
  [("motivation",
    ["The only way to do great work is to love what you do. — Steve Jobs",
     "It does not matter how slowly you go as long as you do not stop. — Confucius",
     "Everything you've ever wanted is on the other side of fear. — George Addair",
     "Believe you can and you're halfway there. — Theodore Roosevelt"]),
   ("wisdom",
    ["The unexamined life is not worth living. — Socrates",
     "In the middle of difficulty lies opportunity. — Albert Einstein",
     "The secret of getting ahead is getting started. — Mark Twain",
     "An investment in knowledge pays the best interest. — Benjamin Franklin"]),
   ("humor",
    ["I am so clever that sometimes I don't understand a single word of what I am saying. — Oscar Wilde",
     "Always borrow money from a pessimist. They never expect it back. — Unknown",
     "I didn't fail the test. I just found 100 ways to do it wrong. — Benjamin Franklin",
     "Behind every great man is a woman rolling her eyes. — Jim Carrey"])]

/-- `ALL_QUOTES = [q for qs in QUOTES.values() for q in qs]`. -/
def ALL_QUOTES : List String := (QUOTES.map Prod.snd).flatten

/-- Model of `random.choice(l)` with the random draw passed explicitly: the
element at index `draw mod l.length` (every element is reachable by some
draw; all uses in the server draw from non-empty lists). -/
def random_choice (l : List String) (draw : Nat) : String :=
  l.getD (draw % l.length) ""

/-- Embedding of `get_quote(category="any")`; `draw` is the random draw
consumed by `random.choice`. The Python binding `cat = category.lower().strip()`
is inlined (the computation is pure). -/
def get_quote (draw : Nat) (category : String := "any") : String :=
  if pyStrip (pyLower category) = "any" then random_choice ALL_QUOTES draw
  else
    match pyDictGet QUOTES (pyStrip (pyLower category)) with
    | none =>
      "Unknown category '" ++ pyStrip (pyLower category) ++
        "'. Choose from: motivation, wisdom, humor, any."
    | some qs => random_choice qs draw

/-- Embedding of `_style_box`: `Option`-valued because the Python `max`
raises on an empty sequence (the `none` branch; shown unreachable below). -/
def style_box (msg : String) : Option String :=
  let lines := splitOnChar '\n' msg.data
  match pyMax (lines.map List.length) with
  | none => none
  | some width =>
    let border := List.replicate (width + 4) '*'
    let body := pyJoinList ['\n']
      (lines.map fun line => "* ".data ++ ljust width line ++ " *".data)
    some ⟨border ++ ['\n'] ++ body ++ ['\n'] ++ border⟩

/-- Embedding of `_style_reverse`. -/
def style_reverse (msg : String) : String := ⟨msg.data.reverse⟩

/-- Embedding of `_style_shout`. -/
def style_shout (msg : String) : String :=
  ⟨pyJoinList " ! ".data (pySplitWS (msg.data.map pyToUpper)) ++ " !!!".data⟩

/-- Embedding of `_style_banner`: `c.strip()` on a single character is truthy
exactly when the stripped single-character string is non-empty. -/
def style_banner (msg : String) : String :=
  ⟨pyJoinList "  ".data
    ((msg.data.filter fun c => !(pyStripList [c]).isEmpty).map
      fun c => List.replicate 3 (pyToUpper c))⟩

/-- The `STYLES` dispatch table of `server.py`. -/
def STYLES : List (String × (String → Option String)) :=
  [("box", style_box),
   ("reverse", fun m => some (style_reverse m)),
   ("shout", fun m => some (style_shout m)),
   ("banner", fun m => some (style_banner m))]

/-- Embedding of `format_message(message, style="box")`. The Python binding
`s = style.lower().strip()` is inlined (the computation is pure). -/
def format_message (message : String) (style : String := "box") : Option String :=
  match pyDictGet STYLES (pyStrip (pyLower style)) with
  | none =>
    some ("Unknown style '" ++ pyStrip (pyLower style) ++
      "'. Choose from: box, reverse, shout, banner.")
  | some f => f message

/-- Modelled from the spec: the `box` style as the spec describes it — split
the input on newlines, take `width` as the length of the longest line, build
borders of `*` of length `width + 4`, render each body line as `* ` plus the
line padded on the right to `width` characters plus ` *`, and join border,
body lines, border with newlines. -/
def box_spec (m : String) : String :=
  ⟨pyJoinList ['\n']
    ([List.replicate ((pyMax ((splitOnChar '\n' m.data).map List.length)).getD 0 + 4) '*'] ++
     (splitOnChar '\n' m.data).map
       (fun line =>
         "* ".data ++
           (line ++ List.replicate
             ((pyMax ((splitOnChar '\n' m.data).map List.length)).getD 0 - line.length) ' ') ++
           " *".data) ++
     [List.replicate ((pyMax ((splitOnChar '\n' m.data).map List.length)).getD 0 + 4) '*'])⟩

/-- Modelled from the spec: the `banner` style as the spec describes it —
every non-whitespace character of the input, uppercased and repeated 3 times,
the triples joined with two spaces, whitespace dropped entirely. -/
def banner_spec (m : String) : String :=
  ⟨pyJoinList "  ".data
    ((m.data.filter fun c => !pyIsSpace c).map fun c => List.replicate 3 (pyToUpper c))⟩

/-- JSON values, as produced by parsing a request body and by `JSONResponse`. -/
inductive Json where
  | null : Json
  | bool : Bool → Json
  | num : Int → Json
  | str : String → Json
  | arr : List Json → Json
  | obj : List (String × Json) → Json

/-- Field lookup in a JSON object (model of Python `dict.get` on the parsed
body; first matching key wins). -/
def getField : List (String × Json) → String → Option Json
  | [], _ => none
  | (k, v) :: rest, key => if k = key then some v else getField rest key

/-- The test `body.get("method") == "tools/list"` of the smart handler
(a non-string or absent `method` compares unequal to a string in Python). -/
def isToolsList (fields : List (String × Json)) : Bool :=
  match getField fields "method" with
  | some (Json.str s) => s == "tools/list"
  | _ => false

/-- The `TOOL_DEFINITIONS` literal of `server.py`, serialized to JSON. -/
def TOOL_DEFINITIONS : List Json :=
  [Json.obj
    [("name", Json.str "get_quote"),
     ("description", Json.str "Get a random quote."),
     ("inputSchema", Json.obj
       [("type", Json.str "object"),
        ("properties", Json.obj
          [("category", Json.obj
            [("type", Json.str "string"),
             ("description", Json.str "One of 'motivation', 'wisdom', 'humor', or 'any'.")])])])],
   Json.obj
    [("name", Json.str "format_message"),
     ("description", Json.str "Format a message in a fun way."),
     ("inputSchema", Json.obj
       [("type", Json.str "object"),
        ("properties", Json.obj
          [("message", Json.obj
            [("type", Json.str "string"),
             ("description", Json.str "The text to format.")]),
           ("style", Json.obj
            [("type", Json.str "string"),
             ("description", Json.str "One of 'box', 'reverse', 'shout', 'banner'.")])]),
        ("required", Json.arr [Json.str "message"])])],
   Json.obj
    [("name", Json.str "server_info"),
     ("description", Json.str "Get metadata about this MCP server."),
     ("inputSchema", Json.obj
       [("type", Json.str "object"),
        ("properties", Json.obj [])])]]

/-- Embedding of `handle_sse_post_smart`: the argument is the result of
attempting to parse the request body as JSON (`none` on parse failure, which
the handler replaces by an empty object). -/
def handle_sse_post_smart (parsed : Option Json) : Json :=
  let body := parsed.getD (Json.obj [])
  match body with
  | Json.obj fields =>
    if isToolsList fields then
      Json.obj
        [("jsonrpc", Json.str "2.0"),
         ("id", (getField fields "id").getD (Json.num 1)),
         ("result", Json.obj [("tools", Json.arr TOOL_DEFINITIONS)])]
    else Json.obj [("status", Json.str "online"), ("protocol", Json.str "sse")]
  | _ => Json.obj [("status", Json.str "online"), ("protocol", Json.str "sse")]

/-- Extract `result.tools` from a response envelope. -/
def responseTools (j : Json) : Option Json :=
  match j with
  | Json.obj fs =>
    match getField fs "result" with
    | some (Json.obj rs) => getField rs "tools"
    | _ => none
  | _ => none

/-- Whether a JSON value is an object carrying the given key. -/
def jsonHasKey (j : Json) (k : String) : Bool :=
  match j with
  | Json.obj fs => (getField fs k).isSome
  | _ => false

/-- The `name` field of a tool descriptor, when it is a string. -/
def toolName (j : Json) : Option String :=
  match j with
  | Json.obj fs =>
    match getField fs "name" with
    | some (Json.str s) => some s
    | _ => none
  | _ => none

/-! Character-level facts about the modelled Python string primitives. -/

theorem toNat_ofNat_of_valid {n : Nat} (h : n.isValidChar) : (Char.ofNat n).toNat = n := by
  unfold Char.ofNat
  rw [dif_pos h]
  rfl

theorem pyToLower_toNat (c : Char) :
    (pyToLower c).toNat =
      if 65 ≤ c.toNat ∧ c.toNat ≤ 90 then c.toNat + 32 else c.toNat := by
  unfold pyToLower
  split
  · next h => exact toNat_ofNat_of_valid (Or.inl (by omega))
  · rfl

theorem pyToLower_eq_self (c : Char) (h : ¬(65 ≤ c.toNat ∧ c.toNat ≤ 90)) :
    pyToLower c = c := by
  unfold pyToLower
  rw [if_neg h]

theorem pyToLower_idem (c : Char) : pyToLower (pyToLower c) = pyToLower c := by
  have h := pyToLower_toNat c
  apply pyToLower_eq_self
  by_cases hc : 65 ≤ c.toNat ∧ c.toNat ≤ 90
  · rw [if_pos hc] at h
    omega
  · rw [if_neg hc] at h
    omega

theorem pyIsSpace_pyToLower (c : Char) : pyIsSpace (pyToLower c) = pyIsSpace c := by
  have h := pyToLower_toNat c
  unfold pyIsSpace
  rw [decide_eq_decide]
  by_cases hc : 65 ≤ c.toNat ∧ c.toNat ≤ 90
  · rw [if_pos hc] at h
    omega
  · rw [if_neg hc] at h
    omega

/-! List-level facts about strip, split and join. -/

theorem dropWhile_dropWhile_same {α : Type} (p : α → Bool) (l : List α) :
    (l.dropWhile p).dropWhile p = l.dropWhile p := by
  cases h : l.dropWhile p with
  | nil => simp
  | cons a t =>
    have hh := List.head?_dropWhile_not p l
    rw [h] at hh
    have ha : p a = false := by simpa using hh
    simp [List.dropWhile_cons, ha]

theorem dropWhile_eq_self_of_prefix {α : Type} (p : α → Bool) {l m : List α}
    (hpre : m <+: l) (hl : l.dropWhile p = l) : m.dropWhile p = m := by
  cases m with
  | nil => rfl
  | cons a t =>
    obtain ⟨r, hr⟩ := hpre
    have ha : p a = false := by
      have hh := List.head?_dropWhile_not p l
      rw [hl, ← hr] at hh
      simpa using hh
    simp [List.dropWhile_cons, ha]

theorem pyStripList_pre (l : List Char) :
    pyStripList l <+: l.dropWhile pyIsSpace := by
  unfold pyStripList
  conv_rhs => rw [← List.reverse_reverse (l.dropWhile pyIsSpace)]
  exact List.reverse_prefix.mpr (List.dropWhile_suffix _)

theorem pyStripList_dropWhile (l : List Char) :
    (pyStripList l).dropWhile pyIsSpace = pyStripList l :=
  dropWhile_eq_self_of_prefix pyIsSpace (pyStripList_pre l)
    (dropWhile_dropWhile_same pyIsSpace l)

theorem pyStripList_idem (l : List Char) : pyStripList (pyStripList l) = pyStripList l := by
  have h1 := pyStripList_dropWhile l
  show (((pyStripList l).dropWhile pyIsSpace).reverse.dropWhile pyIsSpace).reverse = pyStripList l
  rw [h1]
  unfold pyStripList
  rw [List.reverse_reverse, dropWhile_dropWhile_same]

theorem dropWhile_map_pyToLower (l : List Char) :
    (l.map pyToLower).dropWhile pyIsSpace = (l.dropWhile pyIsSpace).map pyToLower := by
  have hf : pyIsSpace ∘ pyToLower = pyIsSpace := funext pyIsSpace_pyToLower
  rw [List.dropWhile_map, hf]

theorem pyStripList_map_pyToLower (l : List Char) :
    pyStripList (l.map pyToLower) = (pyStripList l).map pyToLower := by
  unfold pyStripList
  rw [dropWhile_map_pyToLower, ← List.map_reverse, dropWhile_map_pyToLower, ← List.map_reverse]

theorem map_pyToLower_idem (l : List Char) :
    (l.map pyToLower).map pyToLower = l.map pyToLower := by
  rw [List.map_map]
  congr 1
  funext c
  exact pyToLower_idem c

theorem normalize_normalize (s : String) :
    pyStrip (pyLower (pyLower (pyStrip s))) = pyStrip (pyLower s) := by
  show String.mk (pyStripList (((pyStripList s.data).map pyToLower).map pyToLower)) =
    String.mk (pyStripList (s.data.map pyToLower))
  rw [map_pyToLower_idem, pyStripList_map_pyToLower, pyStripList_idem,
    pyStripList_map_pyToLower]

theorem splitOnChar_ne_nil (sep : Char) (l : List Char) : splitOnChar sep l ≠ [] := by
  cases l with
  | nil => simp [splitOnChar]
  | cons c rest =>
    simp only [splitOnChar]
    split
    · simp
    · split <;> simp

theorem pyJoinList_cons (sep x : List Char) (xs : List (List Char)) (h : xs ≠ []) :
    pyJoinList sep (x :: xs) = x ++ sep ++ pyJoinList sep xs := by
  cases xs with
  | nil => exact absurd rfl h
  | cons y ys => rfl

theorem pyJoinList_append_single (sep y : List Char) (xs : List (List Char)) (h : xs ≠ []) :
    pyJoinList sep (xs ++ [y]) = pyJoinList sep xs ++ sep ++ y := by
  induction xs with
  | nil => exact absurd rfl h
  | cons x xs ih =>
    cases xs with
    | nil => rfl
    | cons z zs =>
      have e1 : pyJoinList sep ((x :: z :: zs) ++ [y]) =
          x ++ sep ++ pyJoinList sep ((z :: zs) ++ [y]) := rfl
      rw [e1, ih (List.cons_ne_nil z zs), pyJoinList_cons sep x (z :: zs) (List.cons_ne_nil z zs)]
      simp [List.append_assoc]

theorem random_choice_mem {l : List String} (h : l ≠ []) (draw : Nat) :
    random_choice l draw ∈ l := by
  have hl : 0 < l.length := List.length_pos.mpr h
  have hd : draw % l.length < l.length := Nat.mod_lt _ hl
  unfold random_choice
  rw [List.getD_eq_getElem?_getD, List.getElem?_eq_getElem hd]
  exact List.getElem_mem hd

theorem handle_tools_eq (fields : List (String × Json)) (h : isToolsList fields = true) :
    handle_sse_post_smart (some (Json.obj fields)) =
      Json.obj
        [("jsonrpc", Json.str "2.0"),
         ("id", (getField fields "id").getD (Json.num 1)),
         ("result", Json.obj [("tools", Json.arr TOOL_DEFINITIONS)])] := by
  unfold handle_sse_post_smart
  simp [h]

theorem pyJoinList_box (sep b x : List Char) (xs : List (List Char)) :
    pyJoinList sep (b :: x :: (xs ++ [b])) = b ++ sep ++ (pyJoinList sep (x :: xs) ++ sep ++ b) := by
  rw [pyJoinList_cons sep b (x :: (xs ++ [b])) (by simp)]
  rw [show x :: (xs ++ [b]) = (x :: xs) ++ [b] from rfl]
  rw [pyJoinList_append_single sep b (x :: xs) (by simp)]

theorem style_box_eq (m : String) : style_box m = some (box_spec m) := by
  obtain ⟨l, ls, hls⟩ := List.exists_cons_of_ne_nil (splitOnChar_ne_nil '\n' m.data)
  unfold style_box box_spec ljust
  rw [hls]
  simp only [List.map_cons, pyMax, Option.getD_some, List.singleton_append, List.cons_append,
    List.nil_append]
  rw [pyJoinList_box]
  simp [List.append_assoc]

theorem pyStripList_singleton (c : Char) : (pyStripList [c]).isEmpty = pyIsSpace c := by
  cases h : pyIsSpace c
  · simp [pyStripList, List.dropWhile_cons, h]
  · simp [pyStripList, List.dropWhile_cons, h]

theorem style_banner_eq (m : String) : style_banner m = banner_spec m := by
  unfold style_banner banner_spec
  have hf : (m.data.filter fun c => !(pyStripList [c]).isEmpty) =
      m.data.filter fun c => !pyIsSpace c := by
    apply List.filter_congr
    intro a _
    show (!(pyStripList [a]).isEmpty) = (!pyIsSpace a)
    rw [pyStripList_singleton]
  rw [hf]

theorem isInfix_append_right {x : List Char} (a rest : List Char) (h : x <:+: rest) :
    x <:+: a ++ rest :=
  h.trans (List.suffix_append a rest).isInfix

theorem isInfix_append_left {x a : List Char} (rest : List Char) (h : x <+: a) :
    x <:+: a ++ rest :=
  (h.trans (List.prefix_append a rest)).isInfix

/-- C1: a POST /sse body that parses to a JSON mapping whose `method` equals
`tools/list` is answered with a JSON-RPC 2.0 success envelope: `jsonrpc` is
"2.0", `id` is the request's `id` if present else `1`, and `result.tools` is
the full serialized Tool Registry — 3 descriptors, each carrying `name`,
`description` and `inputSchema`. -/
theorem spec_C1 (fields : List (String × Json)) (h : isToolsList fields = true) :
    handle_sse_post_smart (some (Json.obj fields)) =
      Json.obj
        [("jsonrpc", Json.str "2.0"),
         ("id", (getField fields "id").getD (Json.num 1)),
         ("result", Json.obj [("tools", Json.arr TOOL_DEFINITIONS)])] ∧
    TOOL_DEFINITIONS.length = 3 ∧
    ∀ t ∈ TOOL_DEFINITIONS,
      jsonHasKey t "name" = true ∧ jsonHasKey t "description" = true ∧
        jsonHasKey t "inputSchema" = true :=
  ⟨handle_tools_eq fields h, rfl, by decide⟩

theorem spec_C1_witness :
    isToolsList [("method", Json.str "tools/list"), ("id", Json.num 7)] = true ∧
    handle_sse_post_smart
        (some (Json.obj [("method", Json.str "tools/list"), ("id", Json.num 7)])) =
      Json.obj
        [("jsonrpc", Json.str "2.0"), ("id", Json.num 7),
         ("result", Json.obj [("tools", Json.arr TOOL_DEFINITIONS)])] := by
  have h := spec_C1 [("method", Json.str "tools/list"), ("id", Json.num 7)] rfl
  exact ⟨rfl, h.1.trans rfl⟩

/-- C2: any parse outcome that is not a mapping with `method = "tools/list"` —
including a failed parse, modelled as `none` and replaced by an empty object,
never surfaced as an error — is answered with the fixed health payload. -/
theorem spec_C2 (parsed : Option Json)
    (h : ∀ fields, parsed = some (Json.obj fields) → isToolsList fields = false) :
    handle_sse_post_smart parsed =
      Json.obj [("status", Json.str "online"), ("protocol", Json.str "sse")] := by
  match parsed with
  | none => rfl
  | some Json.null => rfl
  | some (Json.bool b) => rfl
  | some (Json.num n) => rfl
  | some (Json.str s) => rfl
  | some (Json.arr xs) => rfl
  | some (Json.obj fields) =>
    have hf := h fields rfl
    unfold handle_sse_post_smart
    simp [hf]

theorem spec_C2_witness :
    handle_sse_post_smart none =
      Json.obj [("status", Json.str "online"), ("protocol", Json.str "sse")] :=
  spec_C2 none (fun _ hh => nomatch hh)

/-- C5: every `tools/list` dispatch carries the same complete tool list —
`result.tools` is always exactly the serialized registry, which holds one
descriptor per registered tool (`get_quote`, `format_message`, `server_info`)
— so repeated dispatches return structurally identical lists. -/
theorem spec_C5 (f1 f2 : List (String × Json))
    (h1 : isToolsList f1 = true) (h2 : isToolsList f2 = true) :
    responseTools (handle_sse_post_smart (some (Json.obj f1))) =
      responseTools (handle_sse_post_smart (some (Json.obj f2))) ∧
    responseTools (handle_sse_post_smart (some (Json.obj f1))) =
      some (Json.arr TOOL_DEFINITIONS) ∧
    TOOL_DEFINITIONS.map toolName =
      [some "get_quote", some "format_message", some "server_info"] := by
  have e : ∀ f, isToolsList f = true →
      responseTools (handle_sse_post_smart (some (Json.obj f))) =
        some (Json.arr TOOL_DEFINITIONS) := by
    intro f hf
    rw [handle_tools_eq f hf]
    rfl
  exact ⟨(e f1 h1).trans (e f2 h2).symm, e f1 h1, by decide⟩

theorem spec_C5_witness :
    responseTools
        (handle_sse_post_smart (some (Json.obj [("method", Json.str "tools/list")]))) =
      some (Json.arr TOOL_DEFINITIONS) :=
  (spec_C5 [("method", Json.str "tools/list")] [("method", Json.str "tools/list")]
    rfl rfl).2.1

/-- C3: for a category that is a key of the content table, `get_quote`
returns an element of that category's sequence, and for the category `"any"`
(also the default when unspecified) it returns an element of the flattened
all-categories sequence, whatever the random draw. -/
theorem spec_C3 (cat : String) (qs : List String) (draw : Nat) :
    (pyDictGet QUOTES cat = some qs → get_quote draw cat ∈ qs) ∧
    get_quote draw "any" ∈ ALL_QUOTES ∧ get_quote draw ∈ ALL_QUOTES := by
  refine ⟨?_, ?_, ?_⟩
  · intro h
    simp only [QUOTES, pyDictGet] at h
    split_ifs at h with h1 h2 h3
    · subst h1
      cases h
      exact random_choice_mem (by decide) draw
    · subst h2
      cases h
      exact random_choice_mem (by decide) draw
    · subst h3
      cases h
      exact random_choice_mem (by decide) draw
  · exact random_choice_mem (by decide) draw
  · exact random_choice_mem (by decide) draw

theorem spec_C3_witness :
    pyDictGet QUOTES "motivation" = some ((QUOTES.map Prod.snd).getD 0 []) ∧
    get_quote 5 "motivation" ∈ (QUOTES.map Prod.snd).getD 0 [] ∧
    get_quote 5 "any" ∈ ALL_QUOTES := by
  have h := spec_C3 "motivation" ((QUOTES.map Prod.snd).getD 0 []) 5
  exact ⟨rfl, h.1 rfl, h.2.1⟩

/-- C6: for a category whose lowercased, trimmed form is neither `"any"` nor a
key of the content table, `get_quote` returns (never throws) an ordinary
string that contains the substring "Unknown category" and lists exactly the
valid category names. -/
theorem spec_C6 (category : String) (draw : Nat)
    (h1 : pyStrip (pyLower category) ≠ "any")
    (h2 : pyDictGet QUOTES (pyStrip (pyLower category)) = none) :
    get_quote draw category =
      "Unknown category '" ++ pyStrip (pyLower category) ++
        "'. Choose from: motivation, wisdom, humor, any." ∧
    "Unknown category".data <:+: (get_quote draw category).data ∧
    "motivation".data <:+: (get_quote draw category).data ∧
    "wisdom".data <:+: (get_quote draw category).data ∧
    "humor".data <:+: (get_quote draw category).data ∧
    "any".data <:+: (get_quote draw category).data := by
  have heq : get_quote draw category =
      "Unknown category '" ++ pyStrip (pyLower category) ++
        "'. Choose from: motivation, wisdom, humor, any." := by
    unfold get_quote
    rw [if_neg h1, h2]
  refine ⟨heq, ?_, ?_, ?_, ?_, ?_⟩ <;>
    rw [heq, String.data_append, String.data_append, List.append_assoc]
  · exact isInfix_append_left _ (by decide)
  · exact isInfix_append_right _ _ (isInfix_append_right _ _ (by decide))
  · exact isInfix_append_right _ _ (isInfix_append_right _ _ (by decide))
  · exact isInfix_append_right _ _ (isInfix_append_right _ _ (by decide))
  · exact isInfix_append_right _ _ (isInfix_append_right _ _ (by decide))

theorem spec_C6_witness :
    pyStrip (pyLower "nonexistent") ≠ "any" ∧
    get_quote 0 "nonexistent" =
      "Unknown category 'nonexistent'. Choose from: motivation, wisdom, humor, any." ∧
    "Unknown category".data <:+: (get_quote 0 "nonexistent").data := by
  have h := spec_C6 "nonexistent" 0 (by decide) rfl
  exact ⟨by decide, h.1.trans rfl, h.2.1⟩

/-- C4: the `box` style splits the message on newlines, takes the width of
the longest line, builds identical `*` borders of length width+4, renders
each body line as `* ` + the right-padded line + ` *`, and joins border,
body, border with newlines; on "hi\nworld" this is the 4-line block with
9-star borders. -/
theorem spec_C4 (m : String) :
    format_message m "box" = some (box_spec m) ∧
    format_message "hi\nworld" "box" =
      some "*********\n* hi    *\n* world *\n*********" := by
  refine ⟨?_, by decide⟩
  have e : format_message m "box" = style_box m := rfl
  rw [e, style_box_eq]

/-- C7: the `shout` style uppercases the whole string, splits it on
whitespace into tokens, rejoins them with " ! " and appends " !!!"; on
"go team" this yields "GO ! TEAM !!!". -/
theorem spec_C7 (m : String) :
    format_message m "shout" =
      some ⟨pyJoinList " ! ".data (pySplitWS (m.data.map pyToUpper)) ++ " !!!".data⟩ ∧
    format_message "go team" "shout" = some "GO ! TEAM !!!" :=
  ⟨rfl, by decide⟩

/-- C8: the `banner` style keeps exactly the non-whitespace characters of the
input, uppercases each and repeats it 3 times, and joins the triples with two
spaces; whitespace characters are dropped entirely. -/
theorem spec_C8 (m : String) : format_message m "banner" = some (banner_spec m) := by
  have e : format_message m "banner" = some (style_banner m) := rfl
  rw [e, style_banner_eq]

/-- C9: category and style matching is case-insensitive and whitespace
insensitive — `get_quote` and `format_message` behave identically on an
argument and on its lowercased, trimmed form. -/
theorem spec_C9 (c m s : String) (draw : Nat) :
    get_quote draw c = get_quote draw (pyLower (pyStrip c)) ∧
    format_message m s = format_message m (pyLower (pyStrip s)) := by
  constructor
  · unfold get_quote
    rw [normalize_normalize]
  · unfold format_message
    rw [normalize_normalize]

/-- C10: the `box` style is total on every input: splitting on newlines
always yields at least one line, so the maximum is over a non-empty sequence
and the error branch is unreachable; the empty string yields the 3-line
block. -/
theorem spec_C10 (m : String) :
    (format_message m "box").isSome = true ∧
    1 ≤ (splitOnChar '\n' m.data).length ∧
    format_message "" "box" = some "****\n*  *\n****" := by
  refine ⟨?_, ?_, by decide⟩
  · have e : format_message m "box" = style_box m := rfl
    rw [e, style_box_eq]
    rfl
  · exact List.length_pos.mpr (splitOnChar_ne_nil '\n' m.data)
